import Mathlib

/-!
Verification development for the `loki-client-go` repository: a client-side
log-shipping agent with an in-memory batching buffer, a size/time flush
policy, a background worker goroutine, and a JSON payload builder for the
Loki push API.

The Go source is shallowly embedded below:
* `pkg/level.go`   → `LogLevel` (a Go `int`), the four level constants, and
  `LevelToString`.
* `pkg` buffer     → `LogEntry`, `Buffer`, `NewBuffer`, `Buffer.Add`,
  `Buffer.Flush` (the mutex only serializes Add/Flush; the sequential
  semantics of each critical section is embedded directly).
* `loki/types.go`  → `Stream`, `PushRequest`, `ClientConfig` (the Go
  `map[string]string` label map is embedded as an association list; a Go
  map write is `setLabel`, lookup is `List.lookup`).
* `loki` client    → `normalizeConfig` (the defaulting done by `NewClient`),
  the payload shaping of both versions of `Client.flush`
  (`buildStreams` with per-level grouping, `buildStreamNoLevel` without),
  and a small-step trace semantics `step` for the interplay of
  `pushLogWithLevel`, `Client.worker`, `Client.Stop` and `Client.flush`:
  the environment chooses the instants at which submissions, ticker ticks
  and the stop signal occur, and `step` performs exactly what the Go code
  does at such an instant.  The list of performed Sender invocations is
  recorded as ghost state (`sent`), tagged with the triggering path and
  the instant, so that temporal claims about flush frequency can be read
  off a trace.
-/

namespace Loki

/-- Go `type LogLevel int` from `pkg/level.go`: the full machine-integer
range, not just the four enumerated constants. -/
abbrev LogLevel := Int

/-- `LevelDebug = iota = 0`. -/
def LevelDebug : LogLevel := 0

/-- `LevelInfo = 1`. -/
def LevelInfo : LogLevel := 1

/-- `LevelWarn = 2`. -/
def LevelWarn : LogLevel := 2

/-- `LevelError = 3`. -/
def LevelError : LogLevel := 3

/-- `LevelToString` from `pkg/level.go`: the `switch` over the four
constants with a `default: "unknown"` arm. -/
def LevelToString (level : LogLevel) : String :=
  if level = LevelDebug then "debug"
  else if level = LevelInfo then "info"
  else if level = LevelWarn then "warn"
  else if level = LevelError then "error"
  else "unknown"

/-- `pkg.LogEntry`: Unix-nanosecond timestamp (`int64`), message, level
(the `Level` field has Go type `pkg.LogLevel`, i.e. `Int` here; it is
declared as `Int` so that arithmetic automation sees through it). -/
structure LogEntry where
  Timestamp : Int
  Message : String
  Level : Int
deriving Repr, DecidableEq

/-- `pkg.Buffer`: the mutex-guarded slice of pending entries plus the
target size.  The mutex itself is not modelled; each Go method body is one
critical section and is embedded as one atomic Lean function. -/
structure Buffer where
  entries : List LogEntry
  size : Int
deriving Repr, DecidableEq

/-- `pkg.NewBuffer(size)`: empty entry slice (the Go pre-allocated capacity
is not observable), stored target size. -/
def NewBuffer (size : Int) : Buffer := ⟨[], size⟩

/-- `Buffer.Add`: appends the entry and returns
`len(b.entries) >= b.size`, evaluated after the append. -/
def Buffer.Add (b : Buffer) (entry : LogEntry) : Buffer × Bool :=
  let entries := b.entries ++ [entry]
  (⟨entries, b.size⟩, decide ((entries.length : Int) ≥ b.size))

/-- `Buffer.Flush`: returns the current entries and replaces the slice by a
fresh empty one (Go pre-sizes its capacity to `b.size`, which is not
observable in the value model). -/
def Buffer.Flush (b : Buffer) : Buffer × List LogEntry :=
  (⟨[], b.size⟩, b.entries)

/-- `loki.Stream`: the label map (association list standing for the Go
`map[string]string`) and the ordered `(timestamp-string, message)` pairs. -/
structure Stream where
  Stream : List (String × String)
  Values : List (String × String)
deriving Repr, DecidableEq

/-- `loki.PushRequest`. -/
structure PushRequest where
  Streams : List Stream
deriving Repr, DecidableEq

/-- `loki.ClientConfig` from `loki/types.go` (`MinLevel` has Go type
`pkg.LogLevel`, i.e. `Int`). -/
structure ClientConfig where
  URL : String
  Labels : List (String × String)
  BatchSize : Int
  MinWaitTime : Int
  MaxWaitTime : Int
  MinLevel : Int
deriving Repr, DecidableEq

/-- The defaulting performed at the top of `loki.NewClient`: each
zero-valued field is replaced by its default (`BatchSize` 100,
`MinWaitTime` 1, `MaxWaitTime` 10, `MinLevel` `pkg.LevelInfo`); all other
fields are copied unchanged. -/
def normalizeConfig (config : ClientConfig) : ClientConfig :=
  { config with
    BatchSize := if config.BatchSize = 0 then 100 else config.BatchSize
    MinWaitTime := if config.MinWaitTime = 0 then 1 else config.MinWaitTime
    MaxWaitTime := if config.MaxWaitTime = 0 then 10 else config.MaxWaitTime
    MinLevel := if config.MinLevel = 0 then LevelInfo else config.MinLevel }

/-- Nanoseconds per second: `time.Second` as an `int64` duration. -/
def nsPerSecond : Int := 1000000000

/-- Which code path performed a Sender invocation: a size-triggered flush
(`Buffer.Add` returned true inside `pushLogWithLevel`) or the worker's
backstop-timer flush.  Ghost information recorded for the temporal claims;
the Go code does not store it. -/
inductive Trigger where
  | size
  | timer
deriving Repr, DecidableEq

/-- Ghost record of one Sender invocation: triggering path, the instant
(Unix nanoseconds) at which it happened, and the drained batch. -/
structure SendRec where
  trigger : Trigger
  time : Int
  batch : List LogEntry
deriving Repr, DecidableEq

/-- The state of one `loki.Client` together with its worker goroutine.
`lastFlush` is the worker-local `lastFlush` variable, `workerRunning`
whether the worker goroutine is inside its `select` loop, and `sent` the
ghost log of Sender invocations. -/
structure ClientState where
  config : ClientConfig
  buffer : Buffer
  lastFlush : Int
  workerRunning : Bool
  sent : List SendRec
deriving Repr, DecidableEq

/-- `loki.NewClient(config)`: normalized config, fresh buffer sized to the
normalized batch size, worker not yet started. -/
def initClient (config : ClientConfig) : ClientState :=
  let c := normalizeConfig config
  { config := c
    buffer := NewBuffer c.BatchSize
    lastFlush := 0
    workerRunning := false
    sent := [] }

/-- `Client.flush` as a state transformer: drain the buffer and, when the
drained batch is non-empty, invoke the Sender with it (recorded in the
ghost `sent` log; transport errors are only logged by the Go code and do
not change client state).  `flush` never touches `lastFlush`, which is a
local variable of `Client.worker`. -/
def flushBuf (s : ClientState) (tr : Trigger) (now : Int) : ClientState :=
  let r := s.buffer.Flush
  if r.2.isEmpty then { s with buffer := r.1 }
  else { s with buffer := r.1, sent := s.sent ++ [⟨tr, now, r.2⟩] }

/-- One observable instant of the system.  `submit` is a call of
`pushLogWithLevel` (via `Debug`/`Info`/`Warn`/`Error`) whose
`time.Now().UnixNano()` is `now`; `start` is `Client.Start` (the worker
initializes its local `lastFlush := time.Now()`); `tick` is a delivery of
the worker's `ticker.C`; `stop` is a `Client.Stop` whose channel send is
received by the worker. -/
inductive Event where
  | submit (msg : String) (level : LogLevel) (now : Int)
  | start (now : Int)
  | tick (now : Int)
  | stop
deriving Repr, DecidableEq

/-- Small-step semantics, transcribing the Go code:

* `submit`: `pushLogWithLevel` drops the entry when `level < MinLevel`
  (returning `nil`, no side effect); otherwise it appends the entry via
  `Buffer.Add` and, when `Add` reports the threshold, calls `Client.flush`
  inline on the caller.
* `start`: the worker goroutine begins; `lastFlush := time.Now()`.
* `tick`: handled only while the worker is in its loop; the worker flushes
  and sets `lastFlush = time.Now()` exactly when
  `time.Since(lastFlush) >= time.Second * MaxWaitTime`.
* `stop`: the worker receives on `done` and returns at once — no flush is
  performed on the way out. -/
def step (s : ClientState) : Event → ClientState
  | .submit msg level now =>
      if level < s.config.MinLevel then s
      else
        let r := s.buffer.Add ⟨now, msg, level⟩
        let s1 := { s with buffer := r.1 }
        if r.2 then flushBuf s1 .size now else s1
  | .start now => { s with workerRunning := true, lastFlush := now }
  | .tick now =>
      if s.workerRunning then
        if now - s.lastFlush ≥ nsPerSecond * s.config.MaxWaitTime then
          { flushBuf s .timer now with lastFlush := now }
        else s
      else s
  | .stop => if s.workerRunning then { s with workerRunning := false } else s

/-- Run a trace of events. -/
def runEvents (s : ClientState) (events : List Event) : ClientState :=
  events.foldl step s

/-- Whether a call of `Client.Stop` issued in state `s` blocks forever:
`Stop` performs an unbuffered channel send `c.done <- true`, and the only
receive on `done` in the program is the worker's `select`; so the send
completes exactly when the worker goroutine is still running, and blocks
the calling goroutine forever otherwise. -/
def stopBlocks (s : ClientState) : Bool := !s.workerRunning

/-- Sequence of `Buffer.Add` calls starting from `b`, returning the list
of `thresholdReached` results in call order. -/
def addFlags (b : Buffer) : List LogEntry → List Bool
  | [] => []
  | e :: es => (b.Add e).2 :: addFlags (b.Add e).1 es

/-- An operation on a `Buffer`: one `Add` or one `Flush` (the sequential
interleavings of the two mutex-guarded methods). -/
inductive BOp where
  | add (e : LogEntry)
  | flushOp
deriving Repr, DecidableEq

/-- Run a sequence of buffer operations, collecting each `Flush` call's
drained batch in order. -/
def runB (b : Buffer) : List BOp → Buffer × List (List LogEntry)
  | [] => (b, [])
  | .add e :: ops => runB (b.Add e).1 ops
  | .flushOp :: ops =>
      ((runB (b.Flush).1 ops).1, (b.Flush).2 :: (runB (b.Flush).1 ops).2)

/-- The entries appended by a sequence of buffer operations, in order. -/
def addsOf (ops : List BOp) : List LogEntry :=
  ops.filterMap fun
    | .add e => some e
    | .flushOp => none

/-- The `(strconv.FormatInt(entry.Timestamp, 10), entry.Message)` pair
built by both versions of `Client.flush`; `toString` on `Int` is decimal,
matching `FormatInt` base 10. -/
def entryPair (e : LogEntry) : String × String := (toString e.Timestamp, e.Message)

/-- A Go map write `m[k] = v` on the association-list embedding: replace
the value of an existing key in place, or append a new binding. -/
def setLabel : List (String × String) → String → String → List (String × String)
  | [], k, v => [(k, v)]
  | (k1, v1) :: rest, k, v =>
      if k1 = k then (k, v) :: rest else (k1, v1) :: setLabel rest k v

/-- Distinct elements of a list, keeping first occurrences in order.  Used
to determinize the iteration over the Go `levelGroups` map (whose
iteration order is unspecified); the claims under proof do not depend on
the order of streams within a flush. -/
def firstDedup : List Int → List Int
  | [] => []
  | x :: xs => x :: firstDedup (xs.filter fun y => y ≠ x)
termination_by xs => xs.length
decreasing_by
  simp only [List.length_cons]
  exact Nat.lt_succ_of_le (List.length_filter_le _ _)

/-- Payload shaping of the level-grouping `Client.flush`: group the
drained entries by `Level` preserving drain order inside each group, and
emit one `Stream` per level whose label map is the configured labels with
`detected_level` set to `pkg.LevelToString(level)`. -/
def buildStreams (labels : List (String × String)) (entries : List LogEntry) :
    List Stream :=
  (firstDedup (entries.map (·.Level))).map fun l =>
    { Stream := setLabel labels "detected_level" (LevelToString l)
      Values := (entries.filter fun e => e.Level = l).map entryPair }

/-- Payload shaping of the no-level-grouping `Client.flush`: a single
`Stream` carrying the configured label map unchanged and every drained
entry's pair in drain order. -/
def buildStreamNoLevel (labels : List (String × String)) (entries : List LogEntry) :
    List Stream :=
  [{ Stream := labels, Values := entries.map entryPair }]

/-- Concrete scenario for the last-flush-timestamp claims: `batchSize = 2`,
`maxWaitTime = 10` seconds; the worker starts at instant 0, then two Info
submissions arrive at 1s and 9s (the second crossing the batch-size
threshold and flushing inline at 9s). -/
def c3Mid : ClientState :=
  runEvents (initClient ⟨"http://localhost:3100", [("job", "test")], 2, 1, 10, 1⟩)
    [.start 0, .submit "a" LevelInfo 1000000000, .submit "b" LevelInfo 9000000000]

/-- Continuation of `c3Mid`: one more submission at 9.5s (below threshold)
and the ticker tick at 10s. -/
def c3Fin : ClientState :=
  runEvents c3Mid [.submit "c" LevelInfo 9500000000, .tick 10000000000]

/-- Client configured with `minLevel = Warn` (and defaults otherwise),
used for the level-filtering scenario. -/
def warnClient : ClientState :=
  initClient ⟨"http://localhost:3100", [("job", "test")], 100, 1, 10, LevelWarn⟩

theorem flushBuf_lastFlush (s : ClientState) (tr : Trigger) (now : Int) :
    (flushBuf s tr now).lastFlush = s.lastFlush := by
  simp only [flushBuf]
  split <;> rfl

theorem flushBuf_config (s : ClientState) (tr : Trigger) (now : Int) :
    (flushBuf s tr now).config = s.config := by
  simp only [flushBuf]
  split <;> rfl

theorem add_fst (b : Buffer) (e : LogEntry) :
    (b.Add e).1 = ⟨b.entries ++ [e], b.size⟩ := rfl

theorem add_snd (b : Buffer) (e : LogEntry) :
    (b.Add e).2 = decide (((b.entries.length : Int) + 1) ≥ b.size) := by
  show decide (((b.entries ++ [e]).length : Int) ≥ b.size) = _
  refine decide_eq_decide.mpr ?_
  simp only [List.length_append, List.length_cons, List.length_nil]
  push_cast
  omega

theorem submit_discard (s : ClientState) (msg : String) (level : LogLevel) (now : Int)
    (h : level < s.config.MinLevel) : step s (.submit msg level now) = s := by
  simp only [step]
  simp [h]

theorem submit_append (s : ClientState) (msg : String) (level : LogLevel) (now : Int)
    (h : ¬ level < s.config.MinLevel)
    (hlen : (s.buffer.entries.length : Int) + 1 < s.buffer.size) :
    step s (.submit msg level now) =
      { s with buffer := ⟨s.buffer.entries ++ [⟨now, msg, level⟩], s.buffer.size⟩ } := by
  have hth : (s.buffer.Add ⟨now, msg, level⟩).2 = false := by
    rw [add_snd]
    simp only [decide_eq_false_iff_not, ge_iff_le, not_le]
    exact hlen
  simp only [step]
  rw [if_neg h]
  simp only [hth, Bool.false_eq_true, if_false, add_fst]

theorem addFlags_length (es : List LogEntry) : ∀ b : Buffer,
    (addFlags b es).length = es.length := by
  induction es with
  | nil => intro b; rfl
  | cons e es ih =>
    intro b
    simp only [addFlags, List.length_cons, ih]

theorem addFlags_getD (es : List LogEntry) : ∀ (b : Buffer) (i : Nat), i < es.length →
    (addFlags b es).getD i false = decide (((b.entries.length : Int) + i) + 1 ≥ b.size) := by
  induction es with
  | nil =>
    intro b i hi
    exact absurd hi (Nat.not_lt_zero i)
  | cons e es ih =>
    intro b i hi
    match i with
    | 0 =>
      show (b.Add e).2 = _
      rw [add_snd]
      refine decide_eq_decide.mpr ?_
      push_cast
      omega
    | Nat.succ j =>
      show (addFlags (b.Add e).1 es).getD j false = _
      rw [ih (b.Add e).1 j (Nat.lt_of_succ_lt_succ hi), add_fst]
      refine decide_eq_decide.mpr ?_
      simp only [List.length_append, List.length_cons, List.length_nil]
      push_cast
      omega

theorem runB_conservation (ops : List BOp) : ∀ b : Buffer,
    ((runB b ops).2).flatten ++ (runB b ops).1.entries = b.entries ++ addsOf ops := by
  induction ops with
  | nil => intro b; simp [runB, addsOf]
  | cons op ops ih =>
    intro b
    cases op with
    | add e =>
      show ((runB (b.Add e).1 ops).2).flatten ++ (runB (b.Add e).1 ops).1.entries = _
      rw [ih, add_fst]
      simp [addsOf]
    | flushOp =>
      show ((b.Flush).2 :: (runB (b.Flush).1 ops).2).flatten ++ (runB (b.Flush).1 ops).1.entries = _
      rw [List.flatten_cons, List.append_assoc, ih]
      simp [addsOf, Buffer.Flush]

theorem lookup_setLabel_self (k v : String) :
    ∀ ls : List (String × String), (setLabel ls k v).lookup k = some v := by
  intro ls
  induction ls with
  | nil => simp [setLabel, List.lookup]
  | cons p rest ih =>
    obtain ⟨k1, v1⟩ := p
    by_cases h : k1 = k
    · simp [setLabel, h, List.lookup]
    · simp only [setLabel, if_neg h, List.lookup]
      rw [show (k == k1) = false from beq_eq_false_iff_ne.mpr (Ne.symm h)]
      exact ih

theorem lookup_setLabel_ne (k v k2 : String) (h : k2 ≠ k) :
    ∀ ls : List (String × String), (setLabel ls k v).lookup k2 = ls.lookup k2 := by
  intro ls
  induction ls with
  | nil => simp [setLabel, List.lookup, beq_eq_false_iff_ne.mpr h]
  | cons p rest ih =>
    obtain ⟨k1, v1⟩ := p
    by_cases hk : k1 = k
    · subst hk
      simp [setLabel, List.lookup, beq_eq_false_iff_ne.mpr h]
    · simp only [setLabel, if_neg hk, List.lookup]
      cases hb : (k2 == k1) <;> simp [ih]

theorem firstDedup_mem (a : Int) : ∀ xs : List Int, a ∈ firstDedup xs ↔ a ∈ xs := by
  intro xs
  induction xs using firstDedup.induct with
  | case1 => simp [firstDedup]
  | case2 x xs ih =>
    rw [firstDedup]
    by_cases hax : a = x
    · simp [hax]
    · simp only [List.mem_cons, hax, false_or]
      rw [ih, List.mem_filter]
      simp [hax]

theorem firstDedup_nodup : ∀ xs : List Int, (firstDedup xs).Nodup := by
  intro xs
  induction xs using firstDedup.induct with
  | case1 => simp [firstDedup]
  | case2 x xs ih =>
    rw [firstDedup]
    refine List.nodup_cons.mpr ⟨?_, ih⟩
    intro hx
    rw [firstDedup_mem, List.mem_filter] at hx
    simp at hx

theorem firstDedup_length (xs : List Int) : (firstDedup xs).length = xs.dedup.length := by
  refine List.Perm.length_eq ?_
  refine (List.perm_ext_iff_of_nodup (firstDedup_nodup xs) (List.nodup_dedup xs)).mpr ?_
  intro a
  rw [firstDedup_mem, List.mem_dedup]

theorem levelToString_inj (l1 l2 : Int) (h1a : 0 ≤ l1) (h1b : l1 ≤ 3)
    (h2a : 0 ≤ l2) (h2b : l2 ≤ 3) (h : LevelToString l1 = LevelToString l2) :
    l1 = l2 := by
  revert h
  interval_cases l1 <;> interval_cases l2 <;> decide

/-- C1.  The spec requires a final drain-and-send on stop, and `Stop`'s own
doc comment promises that calling it ensures all logs are sent; but
`Client.worker` returns immediately when it receives on `done`, without
calling `flush`.  Submitting 2 Info entries (batchSize 100, no tick) and
then stopping leaves the Sender uninvoked, the worker terminated and both
entries stranded in the buffer. -/
theorem C1_stop_skips_final_flush :
    (runEvents (initClient ⟨"http://localhost:3100", [("job", "test")], 100, 1, 10, 1⟩)
        [.start 0, .submit "a" LevelInfo 1, .submit "b" LevelInfo 2, .stop]).sent = []
    ∧ (runEvents (initClient ⟨"http://localhost:3100", [("job", "test")], 100, 1, 10, 1⟩)
        [.start 0, .submit "a" LevelInfo 1, .submit "b" LevelInfo 2, .stop]).workerRunning = false
    ∧ (runEvents (initClient ⟨"http://localhost:3100", [("job", "test")], 100, 1, 10, 1⟩)
        [.start 0, .submit "a" LevelInfo 1, .submit "b" LevelInfo 2, .stop]).buffer.entries
      = [⟨1, "a", LevelInfo⟩, ⟨2, "b", LevelInfo⟩] := by
  decide

/-- C2.  The repository README documents a minimum interval of 1 second
between pushes, but `MinWaitTime` is never consulted outside its
defaulting: with batchSize 1 two submissions only 1000 ns apart each
trigger an immediate size flush, so two size-triggered Sender invocations
occur far less than `minWaitTime` (= 1 s) apart. -/
theorem C2_size_flushes_not_throttled :
    (runEvents (initClient ⟨"http://localhost:3100", [("job", "test")], 1, 1, 10, 1⟩)
        [.start 0, .submit "a" LevelInfo 0, .submit "b" LevelInfo 1000]).sent
      = [⟨.size, 0, [⟨0, "a", LevelInfo⟩]⟩, ⟨.size, 1000, [⟨1000, "b", LevelInfo⟩]⟩]
    ∧ (1000 : Int) - 0 < nsPerSecond * 1 := by
  decide

/-- C3, counterexample.  A size-triggered flush (the Sender invocation at
instant 9 s recorded in `c3Mid.sent`) does not update the worker's
`lastFlush`, which stays at the worker-start instant 0; consequently the
backstop tick at 10 s sees `time.Since(lastFlush) ≥ maxWaitTime` and
performs a second, timer-triggered send even though a flush had occurred
only 1 s earlier — contradicting both parts of the claim. -/
theorem C3_lastFlush_not_updated_on_size_flush :
    c3Mid.sent = [⟨.size, 9000000000, [⟨1000000000, "a", LevelInfo⟩, ⟨9000000000, "b", LevelInfo⟩]⟩]
    ∧ c3Mid.lastFlush = 0
    ∧ c3Mid.lastFlush ≠ 9000000000
    ∧ c3Fin.sent.length = 2
    ∧ c3Fin.sent.getD 1 ⟨.size, 0, []⟩ = ⟨.timer, 10000000000, [⟨9500000000, "c", LevelInfo⟩]⟩ := by
  decide

/-- C3, amended.  The worker's `lastFlush` is updated only by
timer-triggered flushes: a submission (hence also a size-triggered flush
performed inline in the submitting caller) and a stop signal leave it
unchanged; `start` initializes it; and a tick overwrites it with the tick
instant exactly when the worker is running and `maxWaitTime` has elapsed
since the last timer flush (or worker start), regardless of any
intervening size-triggered flush. -/
theorem C3_amended_lastFlush_timer_only (s : ClientState) (msg : String)
    (level : LogLevel) (now t : Int) :
    (step s (.submit msg level now)).lastFlush = s.lastFlush
    ∧ (step s .stop).lastFlush = s.lastFlush
    ∧ (step s (.start now)).lastFlush = now
    ∧ (step s (.tick t)).lastFlush =
        (if s.workerRunning then
          (if t - s.lastFlush ≥ nsPerSecond * s.config.MaxWaitTime then t else s.lastFlush)
        else s.lastFlush) := by
  refine ⟨?_, ?_, rfl, ?_⟩
  · by_cases h : level < s.config.MinLevel
    · rw [submit_discard s msg level now h]
    · simp only [step]
      rw [if_neg h]
      by_cases ht : (s.buffer.Add ⟨now, msg, level⟩).2 = true
      · rw [if_pos ht]
        exact flushBuf_lastFlush _ _ _
      · rw [if_neg ht]
  · simp only [step]
    split <;> rfl
  · by_cases hw : s.workerRunning
    · by_cases hc : t - s.lastFlush ≥ nsPerSecond * s.config.MaxWaitTime
      · simp [step, hw, hc]
      · simp [step, hw, hc]
    · simp [step, hw]

/-- C4.  `Stop` is a bare unbuffered send `c.done <- true`, and the only
receive on `done` is the worker's `select`; after the first `Stop` the
worker has returned, so a second `Stop` (or any `Stop` once the worker has
exited) finds no receiver and blocks its caller forever instead of being a
safe no-op. -/
theorem C4_second_stop_would_block :
    (runEvents (initClient ⟨"http://localhost:3100", [("job", "test")], 100, 1, 10, 1⟩)
        [.start 0, .stop]).workerRunning = false
    ∧ stopBlocks (runEvents (initClient ⟨"http://localhost:3100", [("job", "test")], 100, 1, 10, 1⟩)
        [.start 0, .stop]) = true := by
  decide

/-- C5.  `Buffer.Add` appends the entry (preserving the target size) and
returns true exactly when the post-append length reaches `batchSize`; and
over a sequence of `Add` calls from a fresh buffer of size `n`, the i-th
call (0-based) reports the threshold iff `i + 1 ≥ n` — so the call that
makes the length equal `batchSize` returns true and all prior calls
returned false. -/
theorem C5_add_threshold_spec :
    (∀ (b : Buffer) (e : LogEntry),
        (b.Add e).1.entries = b.entries ++ [e]
        ∧ (b.Add e).1.size = b.size
        ∧ ((b.Add e).2 = true ↔ (((b.Add e).1.entries.length : Int)) ≥ b.size))
    ∧ ∀ (n : Int) (es : List LogEntry) (i : Nat), i < es.length →
        (addFlags (NewBuffer n) es).getD i false = decide (((i : Int) + 1) ≥ n) := by
  constructor
  · intro b e
    refine ⟨rfl, rfl, ?_⟩
    rw [add_snd, add_fst, decide_eq_true_eq]
    simp only [List.length_append, List.length_cons, List.length_nil]
    push_cast
    omega
  · intro n es i hi
    rw [addFlags_getD es (NewBuffer n) i hi]
    refine decide_eq_decide.mpr ?_
    show ((((NewBuffer n).entries.length : Int) + i) + 1 ≥ n ↔ _)
    simp only [NewBuffer, List.length_nil, Nat.cast_zero, zero_add]

/-- C5, witness: the second of two `Add` calls into a fresh buffer of size
2 is the one that reaches the threshold. -/
theorem C5_add_threshold_spec_witness :
    (addFlags (NewBuffer 2) [⟨1, "a", 1⟩, ⟨2, "b", 1⟩]).getD 1 false
      = decide (((1 : Int) + 1) ≥ 2) :=
  C5_add_threshold_spec.2 2 [⟨1, "a", 1⟩, ⟨2, "b", 1⟩] 1 (by decide)

/-- C6.  `Buffer.Flush` returns the whole current sequence in insertion
order, leaves the buffer empty with the same target size (so an immediate
second `Flush` returns `[]`); and over any sequence of `Add`/`Flush`
operations, the concatenation of all drained batches followed by the
residual buffer contents equals the initial contents followed by all added
entries in order — hence no entry is drained twice, dropped, or reordered. -/
theorem C6_flush_drains_all_in_order :
    (∀ b : Buffer,
        (b.Flush).2 = b.entries ∧ (b.Flush).1.entries = []
        ∧ (b.Flush).1.size = b.size ∧ ((b.Flush).1.Flush).2 = [])
    ∧ ∀ (b : Buffer) (ops : List BOp),
        ((runB b ops).2).flatten ++ (runB b ops).1.entries = b.entries ++ addsOf ops :=
  ⟨fun _ => ⟨rfl, rfl, rfl, rfl⟩, fun b ops => runB_conservation ops b⟩

/-- C7.  `pushLogWithLevel` drops a submission below `minLevel` with no
side effect at all (and the Go function returns `nil` in every case), while
a submission at or above `minLevel` appends exactly one entry carrying the
given message and level; with `minLevel = Warn`, submitting one Debug, one
Info and one Warn entry leaves exactly the Warn entry in the buffer and
the Sender uninvoked. -/
theorem C7_level_filtering :
    (∀ (s : ClientState) (msg : String) (level : LogLevel) (now : Int),
        level < s.config.MinLevel → step s (.submit msg level now) = s)
    ∧ (∀ (s : ClientState) (msg : String) (level : LogLevel) (now : Int),
        ¬ level < s.config.MinLevel →
        (s.buffer.entries.length : Int) + 1 < s.buffer.size →
        step s (.submit msg level now) =
          { s with buffer := ⟨s.buffer.entries ++ [⟨now, msg, level⟩], s.buffer.size⟩ })
    ∧ (runEvents warnClient
        [.submit "d" LevelDebug 1, .submit "i" LevelInfo 2, .submit "w" LevelWarn 3]).buffer.entries
      = [⟨3, "w", LevelWarn⟩]
    ∧ (runEvents warnClient
        [.submit "d" LevelDebug 1, .submit "i" LevelInfo 2, .submit "w" LevelWarn 3]).sent = [] :=
  ⟨fun s msg level now h => submit_discard s msg level now h,
   fun s msg level now h hlen => submit_append s msg level now h hlen,
   by decide, by decide⟩

/-- C7, witness: on the Warn-level client, a Debug submission is a
complete no-op and a Warn submission appends exactly that entry. -/
theorem C7_level_filtering_witness :
    step warnClient (.submit "d" LevelDebug 1) = warnClient
    ∧ step warnClient (.submit "w" LevelWarn 3) =
        { warnClient with
          buffer := ⟨warnClient.buffer.entries ++ [⟨3, "w", LevelWarn⟩], warnClient.buffer.size⟩ } :=
  ⟨C7_level_filtering.1 warnClient "d" LevelDebug 1 (by decide),
   C7_level_filtering.2.1 warnClient "w" LevelWarn 3 (by decide) (by decide)⟩

/-- C9.  `NewClient` replaces each zero-valued numeric/level field of the
configuration by its default (100, 1 s, 10 s, Info), keeps non-zero values
and the URL and labels unchanged, and the normalization is idempotent
(defaults are applied exactly once); the client stores the normalized
configuration and a fresh buffer sized to the normalized batch size. -/
theorem C9_config_defaults (config : ClientConfig) :
    (config.BatchSize = 0 → (normalizeConfig config).BatchSize = 100)
    ∧ (config.BatchSize ≠ 0 → (normalizeConfig config).BatchSize = config.BatchSize)
    ∧ (config.MinWaitTime = 0 → (normalizeConfig config).MinWaitTime = 1)
    ∧ (config.MinWaitTime ≠ 0 → (normalizeConfig config).MinWaitTime = config.MinWaitTime)
    ∧ (config.MaxWaitTime = 0 → (normalizeConfig config).MaxWaitTime = 10)
    ∧ (config.MaxWaitTime ≠ 0 → (normalizeConfig config).MaxWaitTime = config.MaxWaitTime)
    ∧ (config.MinLevel = 0 → (normalizeConfig config).MinLevel = LevelInfo)
    ∧ (config.MinLevel ≠ 0 → (normalizeConfig config).MinLevel = config.MinLevel)
    ∧ (normalizeConfig config).URL = config.URL
    ∧ (normalizeConfig config).Labels = config.Labels
    ∧ normalizeConfig (normalizeConfig config) = normalizeConfig config
    ∧ (initClient config).config = normalizeConfig config
    ∧ (initClient config).buffer = NewBuffer (normalizeConfig config).BatchSize := by
  refine ⟨?_, ?_, ?_, ?_, ?_, ?_, ?_, ?_, rfl, rfl, ?_, rfl, rfl⟩
  · intro h; simp [normalizeConfig, h]
  · intro h; simp [normalizeConfig, h]
  · intro h; simp [normalizeConfig, h]
  · intro h; simp [normalizeConfig, h]
  · intro h; simp [normalizeConfig, h]
  · intro h; simp [normalizeConfig, h]
  · intro h; simp [normalizeConfig, h]
  · intro h; simp [normalizeConfig, h]
  · simp only [normalizeConfig, ClientConfig.mk.injEq, true_and]
    refine ⟨?_, ?_, ?_, ?_⟩
    · by_cases h : config.BatchSize = 0 <;> simp [h]
    · by_cases h : config.MinWaitTime = 0 <;> simp [h]
    · by_cases h : config.MaxWaitTime = 0 <;> simp [h]
    · by_cases h : config.MinLevel = 0 <;> simp [h, LevelInfo]

/-- C9, witness: an all-zero configuration receives every default, and
non-zero values survive normalization. -/
theorem C9_config_defaults_witness :
    (normalizeConfig ⟨"http://localhost:3100", [("job", "test")], 0, 0, 0, 0⟩).BatchSize = 100
    ∧ (normalizeConfig ⟨"http://localhost:3100", [("job", "test")], 7, 2, 20, 3⟩).BatchSize = 7
    ∧ (normalizeConfig ⟨"http://localhost:3100", [("job", "test")], 0, 0, 0, 0⟩).MinLevel = LevelInfo :=
  ⟨(C9_config_defaults _).1 rfl,
   (C9_config_defaults _).2.1 (by decide),
   (C9_config_defaults _).2.2.2.2.2.2.1 rfl⟩

/-- C10, counterexample.  `LogLevel` is a Go `int`, so `MinLevel` can be
set to a negative value: `-1` is non-zero, survives normalization, leaves
the constructed client with `minLevel = -1 < Info`, and a Debug submission
then passes the `level < MinLevel` filter and is buffered — so it is not
impossible to configure a client that buffers Debug entries. -/
theorem C10_negative_minlevel_counterexample :
    (normalizeConfig ⟨"http://localhost:3100", [], 0, 0, 0, -1⟩).MinLevel < LevelInfo
    ∧ ¬ LevelDebug < (initClient ⟨"http://localhost:3100", [], 0, 0, 0, -1⟩).config.MinLevel
    ∧ (step (initClient ⟨"http://localhost:3100", [], 0, 0, 0, -1⟩)
        (.submit "dbg" LevelDebug 5)).buffer.entries = [⟨5, "dbg", LevelDebug⟩] := by
  decide

/-- C10, amended.  For every configuration whose `MinLevel` is
non-negative — in particular any of the four defined level constants — the
constructed client's `minLevel` is at least Info: an explicit Debug (the
integer zero value) is indistinguishable from unset and is normalized to
Info, and every Debug submission to such a client is discarded. -/
theorem C10_amended_minlevel_normalization (config : ClientConfig)
    (h : 0 ≤ config.MinLevel) :
    LevelInfo ≤ (initClient config).config.MinLevel
    ∧ LevelDebug < (initClient config).config.MinLevel
    ∧ (config.MinLevel = LevelDebug → (initClient config).config.MinLevel = LevelInfo)
    ∧ ∀ (msg : String) (now : Int),
        step (initClient config) (.submit msg LevelDebug now) = initClient config := by
  have hm : (initClient config).config.MinLevel
      = (if config.MinLevel = 0 then LevelInfo else config.MinLevel) := rfl
  have hge : LevelInfo ≤ (initClient config).config.MinLevel := by
    rw [hm]
    by_cases hc : config.MinLevel = 0
    · simp [hc]
    · rw [if_neg hc]
      show (1 : Int) ≤ config.MinLevel
      omega
  have hlt : LevelDebug < (initClient config).config.MinLevel := by
    have h01 : (0 : Int) < 1 := by omega
    calc LevelDebug < LevelInfo := h01
      _ ≤ _ := hge
  refine ⟨hge, hlt, ?_, ?_⟩
  · intro hdz
    rw [hm, if_pos (show config.MinLevel = 0 from hdz)]
  · intro msg now
    exact submit_discard _ msg LevelDebug now hlt

/-- C8.  Payload shaping of a drained batch.  With level grouping (levels
of drained entries are always among the four constants, since only the
`Debug`/`Info`/`Warn`/`Error` methods create entries): there is exactly one
`Stream` per distinct level present — the stream count equals the number
of distinct levels and the produced label maps are pairwise distinct — and
for each level present some produced `Stream` carries the configured
labels plus `detected_level` mapped to that level's name, with exactly
that level's `(decimal-timestamp, message)` pairs in drain order.  Without
level grouping: a single `Stream` with the fixed labels and all drained
pairs in drain order, as in the concrete `[("1000","a"),("2000","b")]`
example. -/
theorem C8_payload_shape :
    (∀ (labels : List (String × String)) (entries : List LogEntry),
        entries ≠ [] →
        (∀ e ∈ entries, 0 ≤ e.Level ∧ e.Level ≤ 3) →
        (buildStreams labels entries).length = ((entries.map (·.Level)).dedup).length
        ∧ ((buildStreams labels entries).map fun st => st.Stream).Nodup
        ∧ ∀ l ∈ entries.map (·.Level),
            ∃ st ∈ buildStreams labels entries,
              st.Stream.lookup "detected_level" = some (LevelToString l)
              ∧ (∀ k, k ≠ "detected_level" → st.Stream.lookup k = labels.lookup k)
              ∧ st.Values = (entries.filter fun e => e.Level = l).map entryPair)
    ∧ (∀ (labels : List (String × String)) (entries : List LogEntry),
        buildStreamNoLevel labels entries = [⟨labels, entries.map entryPair⟩])
    ∧ buildStreamNoLevel [("job", "test")] [⟨1000, "a", LevelInfo⟩, ⟨2000, "b", LevelInfo⟩]
      = [⟨[("job", "test")], [("1000", "a"), ("2000", "b")]⟩] := by
  refine ⟨?_, fun labels entries => rfl, by decide⟩
  intro labels entries hne hrange
  refine ⟨?_, ?_, ?_⟩
  · simp only [buildStreams, List.length_map]
    exact firstDedup_length _
  · simp only [buildStreams, List.map_map]
    refine List.Nodup.map_on ?_ (firstDedup_nodup _)
    intro x hx y hy hxy
    simp only [Function.comp_apply] at hxy
    obtain ⟨ex, hex, hexl⟩ := List.mem_map.mp ((firstDedup_mem x _).mp hx)
    obtain ⟨ey, hey, heyl⟩ := List.mem_map.mp ((firstDedup_mem y _).mp hy)
    have hxr : 0 ≤ x ∧ x ≤ 3 := hexl ▸ hrange ex hex
    have hyr : 0 ≤ y ∧ y ≤ 3 := heyl ▸ hrange ey hey
    have hl : LevelToString x = LevelToString y := by
      have h1 := lookup_setLabel_self "detected_level" (LevelToString x) labels
      have h2 := lookup_setLabel_self "detected_level" (LevelToString y) labels
      rw [hxy] at h1
      rw [h2] at h1
      exact (Option.some.inj h1).symm
    exact levelToString_inj x y hxr.1 hxr.2 hyr.1 hyr.2 hl
  · intro l hl
    refine ⟨⟨setLabel labels "detected_level" (LevelToString l),
             (entries.filter fun e => e.Level = l).map entryPair⟩,
            List.mem_map_of_mem _ ((firstDedup_mem l _).mpr hl),
            lookup_setLabel_self "detected_level" (LevelToString l) labels,
            fun k hk => lookup_setLabel_ne "detected_level" (LevelToString l) k hk labels,
            rfl⟩

/-- C8, witness: a two-entry batch with levels Info and Warn produces two
streams, one per level. -/
theorem C8_payload_shape_witness :
    (buildStreams [("job", "test")] [⟨1000, "a", LevelInfo⟩, ⟨2000, "b", LevelWarn⟩]).length
      = ((([⟨1000, "a", LevelInfo⟩, ⟨2000, "b", LevelWarn⟩] : List LogEntry).map (·.Level)).dedup).length :=
  (C8_payload_shape.1 [("job", "test")] [⟨1000, "a", LevelInfo⟩, ⟨2000, "b", LevelWarn⟩]
    (by decide) (by decide)).1

/-- C10 amended, witness: the all-defaults configuration (MinLevel unset,
i.e. Debug's zero value) yields a client with `minLevel = Info` that
drops a Debug submission. -/
theorem C10_amended_minlevel_normalization_witness :
    LevelInfo ≤ (initClient ⟨"http://localhost:3100", [], 0, 0, 0, 0⟩).config.MinLevel
    ∧ step (initClient ⟨"http://localhost:3100", [], 0, 0, 0, 0⟩)
        (.submit "dbg" LevelDebug 5) = initClient ⟨"http://localhost:3100", [], 0, 0, 0, 0⟩ :=
  ⟨(C10_amended_minlevel_normalization _ (by decide)).1,
   (C10_amended_minlevel_normalization _ (by decide)).2.2.2 "dbg" 5⟩

end Loki
